/-
  Verification of the response-sanitizer core of the Pickle-Thinker middleware.

  Shallow embedding of:
    - tool-call-block.ts   (parseToolCallBlock and helpers)
    - openai-sse.ts        (sanitizeOpenAISseEventStream: SSE framing, mode
                            detection, streaming tag/boundary tracker,
                            thinking-wrapper stripping, event rewriting)
    - response-sanitizer.ts (sanitizeModelResponse routing and the
                            non-streaming rewriteChatCompletionsJson)
    - opencode-tool-ids.ts (built-in tool identifier list)

  Strings are modelled as `List Char`.  JavaScript `randomUUID` is modelled as
  a deterministic fresh-id counter threaded through the state (the sanitizer
  never inspects id values, only embeds them).  JSON numbers are modelled as
  integers (every number appearing in the verified behaviours is an integer).
-/
import Mathlib

/-- Strings are lists of characters. -/
abbrev Str := List Char

/-- Literal helper: the character list of a string literal. -/
def sl (s : String) : Str := s.data

/-- Lower-case a string (models JavaScript `toLowerCase` on ASCII). -/
def lowerS (s : Str) : Str := s.map Char.toLower

/-- Does `p` occur at the start of `s`? -/
def strHasPre : Str → Str → Bool
  | [], _ => true
  | _ :: _, [] => false
  | c :: cs, d :: ds => c == d && strHasPre cs ds

/-- Index of the first occurrence of `p` in `s` (models `String.indexOf`). -/
def findSub : Str → Str → Option Nat
  | [], p => if strHasPre p [] then some 0 else none
  | c :: rest, p =>
    if strHasPre p (c :: rest) then some 0
    else (findSub rest p).map (fun i => i + 1)

/-- Does `p` occur anywhere in `s`? (models `String.includes`). -/
def containsSub (s p : Str) : Bool := (findSub s p).isSome

/-- JavaScript whitespace characters relevant to this code base. -/
def isWsChar (c : Char) : Bool :=
  c == ' ' || c == '\t' || c == '\n' || c == '\r' || c == '\x0b' || c == '\x0c'

/-- Remove leading whitespace (models `trimStart`). -/
def trimStartS (s : Str) : Str := s.dropWhile isWsChar

/-- Remove trailing whitespace (models `trimEnd`). -/
def trimEndS (s : Str) : Str := (trimStartS s.reverse).reverse

/-- Remove surrounding whitespace (models `trim`). -/
def trimS (s : Str) : Str := trimEndS (trimStartS s)

/-- Split a string on a single character (models `split("\n")`). -/
def splitOnCh (c : Char) (s : Str) : List Str :=
  match s with
  | [] => [[]]
  | d :: rest =>
    let tail := splitOnCh c rest
    if d == c then [] :: tail
    else match tail with
      | [] => [[d]]
      | t :: ts => (d :: t) :: ts

/-- JSON values.  Numbers are modelled as integers. -/
inductive Json where
  | null : Json
  | bool : Bool → Json
  | num : Int → Json
  | str : Str → Json
  | arr : List Json → Json
  | obj : List (Str × Json) → Json

/-- Field lookup on a JSON object (models JavaScript property access). -/
def getField : Json → Str → Option Json
  | Json.obj fields, k => (fields.find? (fun f => f.fst == k)).map (fun f => f.snd)
  | _, _ => none

/-- Replace the value of key `k` (first occurrence, keeping its position), or
append the binding at the end — models JavaScript property assignment and the
object-spread override. -/
def setField (fields : List (Str × Json)) (k : Str) (v : Json) : List (Str × Json) :=
  match fields with
  | [] => [(k, v)]
  | (k0, v0) :: rest =>
    if k0 == k then (k0, v) :: rest
    else (k0, v0) :: setField rest k v

/-- Set a field on a JSON object value (no-op shape change on non-objects). -/
def objSet (j : Json) (k : Str) (v : Json) : Json :=
  match j with
  | Json.obj fields => Json.obj (setField fields k v)
  | other => other

/-- Escape one character for JSON string serialization. -/
def jsonEscapeChar (c : Char) : Str :=
  if c == '"' then ['\\', '"']
  else if c == '\\' then ['\\', '\\']
  else if c == '\n' then ['\\', 'n']
  else if c == '\r' then ['\\', 'r']
  else if c == '\t' then ['\\', 't']
  else [c]

/-- Serialize a JSON string body. -/
def jsonEscape (s : Str) : Str := s.flatMap jsonEscapeChar

mutual
/-- Serialize a JSON value (models `JSON.stringify`: no whitespace, keys in
insertion order, integers without a decimal point). -/
def jsonStringify : Json → Str
  | Json.null => sl ("null")
  | Json.bool true => sl ("true")
  | Json.bool false => sl ("false")
  | Json.num n => (toString n).data
  | Json.str s => '"' :: jsonEscape s ++ ['"']
  | Json.arr xs => '[' :: jsonStringifyList xs ++ [']']
  | Json.obj fields => '\x7b' :: jsonStringifyFields fields ++ ['\x7d']

def jsonStringifyList : List Json → Str
  | [] => []
  | [x] => jsonStringify x
  | x :: rest => jsonStringify x ++ ',' :: jsonStringifyList rest

def jsonStringifyFields : List (Str × Json) → Str
  | [] => []
  | [(k, v)] => '"' :: jsonEscape k ++ '"' :: ':' :: jsonStringify v
  | (k, v) :: rest =>
    '"' :: jsonEscape k ++ '"' :: ':' :: jsonStringify v ++ ',' :: jsonStringifyFields rest
end

/-- Is `c` a decimal digit? -/
def isDigitCh (c : Char) : Bool := '0' ≤ c && c ≤ '9'

/-- Digit list to natural number. -/
def digitsToNat (ds : Str) : Nat :=
  ds.foldl (fun acc c => acc * 10 + (c.toNat - '0'.toNat)) 0

mutual
/-- Parse one JSON value from the front of `s`; returns the value and the rest.
Fuel-based recursion; callers always supply fuel larger than the input length,
which suffices because every step consumes at least one character. -/
def jsonParseVal (fuel : Nat) (s : Str) : Option (Json × Str) :=
  match fuel with
  | 0 => none
  | fuel + 1 =>
    let s := trimStartS s
    match s with
    | [] => none
    | c :: rest =>
      if strHasPre (sl ("null")) s then some (Json.null, s.drop 4)
      else if strHasPre (sl ("true")) s then some (Json.bool true, s.drop 4)
      else if strHasPre (sl ("false")) s then some (Json.bool false, s.drop 5)
      else if c == '"' then
        (jsonParseStr fuel rest).map (fun (t, r) => (Json.str t, r))
      else if c == '-' || isDigitCh c then
        let (neg, body) := if c == '-' then (true, rest) else (false, s)
        let ds := body.takeWhile isDigitCh
        let after := body.dropWhile isDigitCh
        if ds.isEmpty then none
        else
          -- model restriction: fractional / exponent numbers are rejected
          match after with
          | '.' :: _ => none
          | 'e' :: _ => none
          | 'E' :: _ => none
          | _ =>
            let n : Int := Int.ofNat (digitsToNat ds)
            some (Json.num (if neg then -n else n), after)
      else if c == '[' then
        let rest' := trimStartS rest
        match rest' with
        | ']' :: r => some (Json.arr [], r)
        | _ => (jsonParseArr fuel rest).map (fun (xs, r) => (Json.arr xs, r))
      else if c == '\x7b' then
        let rest' := trimStartS rest
        match rest' with
        | '\x7d' :: r => some (Json.obj [], r)
        | _ => (jsonParseObj fuel rest).map (fun (fs, r) => (Json.obj fs, r))
      else none

/-- Parse the body of a JSON string (after the opening quote). -/
def jsonParseStr (fuel : Nat) (s : Str) : Option (Str × Str) :=
  match fuel with
  | 0 => none
  | fuel + 1 =>
    match s with
    | [] => none
    | '"' :: rest => some ([], rest)
    | '\\' :: e :: rest =>
      let dec : Option Char :=
        if e == '"' then some '"'
        else if e == '\\' then some '\\'
        else if e == '/' then some '/'
        else if e == 'n' then some '\n'
        else if e == 't' then some '\t'
        else if e == 'r' then some '\r'
        else if e == 'b' then some '\x08'
        else if e == 'f' then some '\x0c'
        else none
      match dec with
      | none => none
      | some d => (jsonParseStr fuel rest).map (fun (t, r) => (d :: t, r))
    | c :: rest => (jsonParseStr fuel rest).map (fun (t, r) => (c :: t, r))

/-- Parse array elements (after `[`, first element pending). -/
def jsonParseArr (fuel : Nat) (s : Str) : Option (List Json × Str) :=
  match fuel with
  | 0 => none
  | fuel + 1 =>
    match jsonParseVal fuel s with
    | none => none
    | some (v, r) =>
      match trimStartS r with
      | ',' :: r2 => (jsonParseArr fuel r2).map (fun (xs, r3) => (v :: xs, r3))
      | ']' :: r2 => some ([v], r2)
      | _ => none

/-- Parse object members (after the opening brace, first member pending). -/
def jsonParseObj (fuel : Nat) (s : Str) : Option (List (Str × Json) × Str) :=
  match fuel with
  | 0 => none
  | fuel + 1 =>
    match trimStartS s with
    | '"' :: r =>
      match jsonParseStr fuel r with
      | none => none
      | some (k, r1) =>
        match trimStartS r1 with
        | ':' :: r2 =>
          match jsonParseVal fuel r2 with
          | none => none
          | some (v, r3) =>
            match trimStartS r3 with
            | ',' :: r4 => (jsonParseObj fuel r4).map (fun (fs, r5) => ((k, v) :: fs, r5))
            | '\x7d' :: r4 => some ([(k, v)], r4)
            | _ => none
        | _ => none
    | _ => none
end

/-- Parse a complete JSON document (models `JSON.parse`: the whole input must
be consumed up to trailing whitespace). -/
def jsonParse (s : Str) : Option Json :=
  match jsonParseVal (s.length + 1) s with
  | some (v, rest) => if (trimStartS rest).isEmpty then some v else none
  | none => none

/-- Search for `p` (already lower-cased) in `s` starting at offset `from0`,
comparing case-insensitively; returns an absolute index. -/
def findSubCiFrom (s p : Str) (from0 : Nat) : Option Nat :=
  (findSub (lowerS (s.drop from0)) p).map (fun i => i + from0)

/-- A recovered tool invocation: `{toolName, arguments}` with the arguments
already serialized to JSON (mirrors the `ParsedToolCall` shape). -/
structure ToolCall where
  toolName : Str
  arguments : Str
deriving DecidableEq, Repr

/-- Built-in tool IDs from OpenCode's ToolRegistry
(`OPENCODE_BUILTIN_TOOL_IDS` in opencode-tool-ids.ts). -/
def opencodeBuiltinToolIds : List Str :=
  [sl ("invalid"), sl ("bash"), sl ("read"), sl ("glob"), sl ("grep"),
   sl ("list"), sl ("edit"), sl ("write"), sl ("task"), sl ("webfetch"),
   sl ("todo_write"), sl ("todo_read"), sl ("websearch"), sl ("codesearch"),
   sl ("batch")]

/-- `isOpencodeBuiltinToolId` from opencode-tool-ids.ts. -/
def isOpencodeBuiltinToolId (value : Str) : Bool :=
  opencodeBuiltinToolIds.contains value

/-- Association-list lookup modelling JavaScript record field access. -/
def lookupArg (args : List (Str × Json)) (k : Str) : Option Json :=
  (args.find? (fun f => f.fst == k)).map (fun f => f.snd)

/-- `coerceValue` from tool-call-block.ts: trim; empty becomes the empty
string; otherwise attempt `JSON.parse`, keeping the raw trimmed string on
failure. -/
def coerceValue (raw : Str) : Json :=
  let trimmed := trimS raw
  if trimmed.isEmpty then Json.str []
  else
    match jsonParse trimmed with
    | some v => v
    | none => Json.str trimmed

/-- One step of the standard key/value pair regex
`<arg_key>\s*(.*?)\s*</arg_key>\s*<arg_value>\s*(.*?)\s*</arg_value>` (case
insensitive): given the text following an `<arg_key>` opener, try each
`</arg_key>` close (in order, mirroring regex backtracking), require
`\s*<arg_value>`, and capture up to the first `</arg_value>`.  Returns
(key, value, rest-after-match). -/
def matchPairTail (fuel : Nat) (t : Str) (base : Nat) : Option (Str × Str × Str) :=
  match fuel with
  | 0 => none
  | fuel + 1 =>
    match findSubCiFrom t (sl ("</arg_key>")) base with
    | none => none
    | some i =>
      let key := trimS (t.take i)
      let afterClose := trimStartS (t.drop (i + 10))
      if strHasPre (sl ("<arg_value>")) (lowerS afterClose) then
        let v := afterClose.drop 11
        match findSub (lowerS v) (sl ("</arg_value>")) with
        | some j => some (key, trimS (v.take j), v.drop (j + 12))
        | none => matchPairTail fuel t (i + 1)
      else matchPairTail fuel t (i + 1)

/-- All matches of the standard key/value pair regex, left to right and
non-overlapping (models `matchAll`).  Yields trimmed (key, rawValue) pairs. -/
def findArgPairsStd (fuel : Nat) (s : Str) : List (Str × Str) :=
  match fuel with
  | 0 => []
  | fuel + 1 =>
    match findSubCiFrom s (sl ("<arg_key>")) 0 with
    | none => []
    | some p =>
      let t := s.drop (p + 9)
      match matchPairTail (t.length + 1) t 0 with
      | some (k, v, rest) => (k, v) :: findArgPairsStd fuel rest
      | none => findArgPairsStd fuel (s.drop (p + 9))

/-- Word character class `[A-Za-z0-9_]`. -/
def isWordCh (c : Char) : Bool :=
  ('a' ≤ c && c ≤ 'z') || ('A' ≤ c && c ≤ 'Z') || ('0' ≤ c && c ≤ '9') || c == '_'

/-- One step of the malformed fused-key regex
`<arg_key([A-Za-z0-9_]+)\s*</arg_key>\s*<arg_value>\s*(.*?)\s*</arg_value>`:
given the text following `<arg_key`, capture the fused word, then require the
close tag and the value pair. -/
def matchFusedTail (t : Str) : Option (Str × Str × Str) :=
  let key := t.takeWhile isWordCh
  if key.isEmpty then none
  else
    let after := trimStartS (t.drop key.length)
    if strHasPre (sl ("</arg_key>")) (lowerS after) then
      let afterClose := trimStartS (after.drop 10)
      if strHasPre (sl ("<arg_value>")) (lowerS afterClose) then
        let v := afterClose.drop 11
        match findSub (lowerS v) (sl ("</arg_value>")) with
        | some j => some (key, trimS (v.take j), v.drop (j + 12))
        | none => none
      else none
    else none

/-- All matches of the malformed fused-key regex, left to right. -/
def findArgPairsFused (fuel : Nat) (s : Str) : List (Str × Str) :=
  match fuel with
  | 0 => []
  | fuel + 1 =>
    match findSubCiFrom s (sl ("<arg_key")) 0 with
    | none => []
    | some p =>
      let t := s.drop (p + 8)
      match matchFusedTail t with
      | some (k, v, rest) => (k, v) :: findArgPairsFused fuel rest
      | none => findArgPairsFused fuel (s.drop (p + 8))

/-- Build the `args` record from both extraction passes (standard pairs first,
then the malformed variant), with JavaScript assignment semantics: empty keys
skipped, later assignments overwrite in place. -/
def buildArgs (toolCallXmlish : Str) : List (Str × Json) :=
  let pairs := findArgPairsStd (toolCallXmlish.length + 1) toolCallXmlish
    ++ findArgPairsFused (toolCallXmlish.length + 1) toolCallXmlish
  pairs.foldl
    (fun acc kv =>
      if kv.fst.isEmpty then acc else setField acc kv.fst (coerceValue kv.snd))
    []

/-- Attribute scan inside one `<tool_call ...` opener: mirrors the regex tail
`[^>]*\b(?:name|tool)="([^"]+)"` — walk forward from position `q`, stopping at
`>` or end of string; at a word boundary try `name="` / `tool="` (case
insensitive) and capture up to the next quote (non-empty). -/
def attrScanFrom (fuel : Nat) (s : Str) (q : Nat) : Option Str :=
  match fuel with
  | 0 => none
  | fuel + 1 =>
    match s.drop q with
    | [] => none
    | c :: _ =>
      if c == '>' then none
      else
        let boundaryOk :=
          match s.take q with
          | [] => true
          | _ => match (s.take q).getLast? with
            | some prev => !isWordCh prev
            | none => true
        let tail := lowerS (s.drop q)
        if boundaryOk
            && (strHasPre (sl ("name=\"")) tail || strHasPre (sl ("tool=\"")) tail) then
          let afterQuote := s.drop (q + 6)
          match findSub afterQuote ['"'] with
          | some 0 => attrScanFrom fuel s (q + 1)
          | some j => some (afterQuote.take j)
          | none => attrScanFrom fuel s (q + 1)
        else attrScanFrom fuel s (q + 1)

/-- Find the attribute-form tool name: mirrors
`/<tool_call\b[^>]*\b(?:name|tool)="([^"]+)"/i`, trying each `<tool_call`
occurrence in order. -/
def attrToolName (fuel : Nat) (s : Str) (from0 : Nat) : Option Str :=
  match fuel with
  | 0 => none
  | fuel + 1 =>
    match findSubCiFrom s (sl ("<tool_call")) from0 with
    | none => none
    | some p =>
      let boundary :=
        match s.drop (p + 10) with
        | [] => true
        | c :: _ => !isWordCh c
      if boundary then
        match attrScanFrom (s.length + 1) s (p + 10) with
        | some cap => some cap
        | none => attrToolName fuel s (p + 1)
      else attrToolName fuel s (p + 1)

/-- JavaScript `a ?? b`: skip missing and null values. -/
def argOrNull (args : List (Str × Json)) (k : Str) : Option Json :=
  match lookupArg args k with
  | some Json.null => none
  | o => o

/-- `extractExplicitToolName` from tool-call-block.ts: attribute form first,
then a string argument named tool / name / toolName. -/
def extractExplicitToolName (toolCallXmlish : Str) (args : List (Str × Json)) : Option Str :=
  match attrToolName (toolCallXmlish.length + 1) toolCallXmlish 0 with
  | some cap => some (trimS cap)
  | none =>
    let argName :=
      match argOrNull args (sl ("tool")) with
      | some v => some v
      | none =>
        match argOrNull args (sl ("name")) with
        | some v => some v
        | none => argOrNull args (sl ("toolName"))
    match argName with
    | some (Json.str s) => if (trimS s).isEmpty then none else some (trimS s)
    | _ => none

/-- `stripToolNameFields`: remove tool / name / toolName, keeping the rest in
order. -/
def stripToolNameFields (args : List (Str × Json)) : List (Str × Json) :=
  args.filter (fun f =>
    !(f.fst == sl ("tool") || f.fst == sl ("name") || f.fst == sl ("toolName")))

/-- Is the argument present with a string value? -/
def argIsStr (args : List (Str × Json)) (k : String) : Bool :=
  match lookupArg args (sl k) with
  | some (Json.str _) => true
  | _ => false

/-- Is the argument present with an array value? -/
def argIsArr (args : List (Str × Json)) (k : String) : Bool :=
  match lookupArg args (sl k) with
  | some (Json.arr _) => true
  | _ => false

/-- Is the argument present with a numeric value? -/
def argIsNum (args : List (Str × Json)) (k : String) : Bool :=
  match lookupArg args (sl k) with
  | some (Json.num _) => true
  | _ => false

/-- The conservative fallback at the end of `inferToolNameFromArgs`: a `tool`
argument naming a known built-in. -/
def inferFallback (args : List (Str × Json)) : Option Str :=
  match lookupArg args (sl ("tool")) with
  | some (Json.str s) => if isOpencodeBuiltinToolId s then some s else none
  | _ => none

/-- `inferToolNameFromArgs` from tool-call-block.ts: the fixed decision table,
in source order, then the conservative built-in fallback. -/
def inferToolNameFromArgs (args : List (Str × Json)) : Option Str :=
  if argIsArr args "tool_calls" then some (sl ("batch"))
  else if argIsStr args "filePath" && argIsStr args "content" then some (sl ("write"))
  else if argIsStr args "filePath" && argIsStr args "oldString" && argIsStr args "newString" then
    some (sl ("edit"))
  else if argIsStr args "filePath" then some (sl ("read"))
  else if argIsStr args "pattern" && (argIsStr args "include" || argIsStr args "path") then
    some (sl ("grep"))
  else if argIsStr args "pattern" then some (sl ("glob"))
  else if argIsStr args "path" && argIsArr args "ignore" then some (sl ("list"))
  else if argIsStr args "url" then some (sl ("webfetch"))
  else if argIsStr args "query" && argIsNum args "tokensNum" then some (sl ("codesearch"))
  else if argIsStr args "query" then some (sl ("websearch"))
  else if argIsStr args "prompt" && argIsStr args "subagent_type" then some (sl ("task"))
  else if argIsStr args "command" then some (sl ("bash"))
  else if argIsArr args "todos" then some (sl ("todo_write"))
  else inferFallback args

/-- `parseToolCallBlock` from tool-call-block.ts: extract arguments, resolve
the tool name (explicit, then inferred), serialize the arguments. -/
def parseToolCallBlock (toolCallXmlish : Str) : Option ToolCall :=
  let args := buildArgs toolCallXmlish
  match extractExplicitToolName toolCallXmlish args with
  | some n =>
    some { toolName := n, arguments := jsonStringify (Json.obj (stripToolNameFields args)) }
  | none =>
    match inferToolNameFromArgs args with
    | none => none
    | some n => some { toolName := n, arguments := jsonStringify (Json.obj args) }

/-- Single left-to-right pass removing every complete occurrence of one of two
markers (case-insensitive) together with the trailing whitespace run — models
one `replace(/m\s*/gi, "")` pass; removed regions are not rescanned. -/
def removeMarkers2 (fuel : Nat) (m1 m2 : Str) (s : Str) : Str :=
  match fuel, s with
  | 0, s => s
  | _ + 1, [] => []
  | fuel + 1, c :: rest =>
    if strHasPre m1 (lowerS (c :: rest)) then
      removeMarkers2 fuel m1 m2 (trimStartS ((c :: rest).drop m1.length))
    else if strHasPre m2 (lowerS (c :: rest)) then
      removeMarkers2 fuel m1 m2 (trimStartS ((c :: rest).drop m2.length))
    else c :: removeMarkers2 fuel m1 m2 rest

/-- The four thinking wrapper markers (lower case). -/
def thinkMarkers : List Str :=
  [sl ("<think>"), sl ("</think>"), sl ("[think]"), sl ("[/think]")]

/-- `splitDanglingThinkingPrefix` from openai-sse.ts (the trailing apostrophe
of the source name is immaterial; `Pre` is used here): look for the longest
trailing fragment of length 8 down to 3 that lower-cases to something
containing `th` and starting some thinking marker; hold it back as dangling. -/
def splitDanglingThinkLoop (text : Str) (len : Nat) : Str × Str :=
  match len with
  | 0 => (text, [])
  | 1 => (text, [])
  | 2 => (text, [])
  | len0 + 1 =>
    let len := len0 + 1
    let suffixPart := text.drop (text.length - len)
    let lowered := lowerS suffixPart
    if containsSub lowered (sl ("th"))
        && thinkMarkers.any (fun m => strHasPre lowered m) then
      (text.take (text.length - len), suffixPart)
    else splitDanglingThinkLoop text len0

/-- The `splitDanglingThinkingPrefix` entry point: suffix lengths from
`min(length, 8)` down to 3. -/
def splitDanglingThink (text : Str) : Str × Str :=
  splitDanglingThinkLoop text (min text.length 8)

/-- `stripThinkingWrappers` from openai-sse.ts: prepend the held-back dangling
fragment, remove complete markers (angle pass then bracket pass), split off a
new dangling suffix.  Returns (visible, newDangling). -/
def stripThinkingWrappers (dangling text : Str) : Str × Str :=
  let combined := dangling ++ text
  let cleaned1 :=
    removeMarkers2 (combined.length + 1) (sl ("<think>")) (sl ("</think>")) combined
  let cleaned2 :=
    removeMarkers2 (cleaned1.length + 1) (sl ("[think]")) (sl ("[/think]")) cleaned1
  splitDanglingThink cleaned2

/-- Cross-fragment state of the streaming tag/boundary tracker. -/
structure TrackS where
  inToolCall : Bool
  toolCallBuffer : Str
  dangling : Str
deriving DecidableEq, Repr

/-- Initial tracker state. -/
def trackInit : TrackS := { inToolCall := false, toolCallBuffer := [], dangling := [] }

/-- The scanning loop of `extractToolCallsFromText`: alternate between
searching for the `<tool_call` opener (emitting preceding text as visible) and
accumulating until `</tool_call>`, handing each completed block to
`parseToolCallBlock`. -/
def extractLoop (fuel : Nat) (inTC : Bool) (buf remaining visAcc : Str)
    (callsAcc : List ToolCall) : Bool × Str × Str × List ToolCall :=
  match fuel with
  | 0 => (inTC, buf, visAcc, callsAcc)
  | fuel + 1 =>
    if remaining.isEmpty then (inTC, buf, visAcc, callsAcc)
    else if !inTC then
      match findSub (lowerS remaining) (sl ("<tool_call")) with
      | none => (inTC, buf, visAcc ++ remaining, callsAcc)
      | some startIdx =>
        let visAcc := visAcc ++ remaining.take startIdx
        let afterStart := remaining.drop startIdx
        match findSub afterStart ['>'] with
        | none => (true, buf ++ afterStart, visAcc, callsAcc)
        | some rel =>
          extractLoop fuel true (buf ++ afterStart.take (rel + 1))
            (afterStart.drop (rel + 1)) visAcc callsAcc
    else
      match findSub (lowerS remaining) (sl ("</tool_call>")) with
      | none => (true, buf ++ remaining, visAcc, callsAcc)
      | some endIdx =>
        let buf := buf ++ remaining.take (endIdx + 12)
        let rem := remaining.drop (endIdx + 12)
        let callsAcc :=
          match parseToolCallBlock buf with
          | some p => callsAcc ++ [p]
          | none => callsAcc
        extractLoop fuel false [] rem visAcc callsAcc

/-- `extractToolCallsFromText` from openai-sse.ts: strip thinking wrappers
(with dangling-suffix buffering), then scan for tool-call blocks, carrying the
`inToolCall` / `toolCallBuffer` state across fragments. -/
def extractToolCallsFromText (st : TrackS) (text : Str) : TrackS × Str × List ToolCall :=
  let (cleaned, dang) := stripThinkingWrappers st.dangling text
  let r := extractLoop (cleaned.length + 1) st.inToolCall st.toolCallBuffer cleaned [] []
  ({ inToolCall := r.1, toolCallBuffer := r.2.1, dangling := dang }, r.2.2.1, r.2.2.2)

/-- Feed successive fragments through the tracker, concatenating the visible
text and the recovered tool calls. -/
def runTracker (st : TrackS) : List Str → TrackS × Str × List ToolCall
  | [] => (st, [], [])
  | f :: fs =>
    let r1 := extractToolCallsFromText st f
    let r2 := runTracker r1.1 fs
    (r2.1, r1.2.1 ++ r2.2.1, r1.2.2 ++ r2.2.2)

/-- Protocol mode of one sanitized stream. -/
inductive Mode where
  | unknown : Mode
  | responses : Mode
  | chat : Mode
deriving DecidableEq, Repr

/-- Per-stream sanitizer state (openai-sse.ts closure variables): detected
mode, shared tracker state, highest output index seen, and the fresh-id
counter modelling `randomUUID`. -/
structure SseS where
  mode : Mode
  track : TrackS
  maxOutputIndex : Int
  nextId : Nat
deriving DecidableEq, Repr

/-- Initial stream state (`mode = unknown`, `maxOutputIndex = -1`). -/
def sseInit : SseS :=
  { mode := Mode.unknown, track := trackInit, maxOutputIndex := -1, nextId := 0 }

/-- Deterministic model of `randomUUID`. -/
def freshUuid (n : Nat) : Str := sl ("uuid-") ++ (toString n).data

/-- `detectMode` from openai-sse.ts: a string `type` field selects Responses,
an array `choices` field selects Chat Completions, anything else stays
unknown. -/
def detectMode (firstJson : Json) : Mode :=
  match getField firstJson (sl ("type")) with
  | some (Json.str _) => Mode.responses
  | _ =>
    match getField firstJson (sl ("choices")) with
    | some (Json.arr _) => Mode.chat
    | _ => Mode.unknown

/-- The numeric `output_index` field of an event, when present. -/
def jsonOutputIdx (j : Json) : Option Int :=
  match getField j (sl ("output_index")) with
  | some (Json.num n) => some n
  | _ => none

/-- The `maxOutputIndex` update applied to every JSON event in Responses mode
(openai-sse.ts line `if (mode === "responses" && typeof json?.output_index
=== "number") maxOutputIndex = Math.max(...)`). -/
def updateMaxOutputIdx (s : SseS) (json : Json) : SseS :=
  if s.mode = Mode.responses then
    match jsonOutputIdx json with
    | some n => { s with maxOutputIndex := max s.maxOutputIndex n }
    | none => s
  else s

/-- Is the chunk a Responses-protocol incremental text delta with a string
`delta` (the only rewrite candidate)? -/
def isTextDelta (chunk : Json) : Bool :=
  (match getField chunk (sl ("type")) with
   | some (Json.str t) => t == sl ("response.output_text.delta")
   | _ => false)
  && (match getField chunk (sl ("delta")) with
      | some (Json.str _) => true
      | _ => false)

/-- Synthesize the three Responses-protocol events for each recovered tool
call (output_item.added, function_call_arguments.delta, output_item.done),
allocating fresh output indices and ids; returns the updated max index, the
updated id counter and the injected events. -/
def synthResponsesEvents (maxIdx : Int) (nid : Nat) :
    List ToolCall → Int × Nat × List Json
  | [] => (maxIdx, nid, [])
  | tc :: rest =>
    let outputIndex : Int := max (maxIdx + 1) 0
    let itemId := freshUuid nid
    let callId := freshUuid (nid + 1)
    let added := Json.obj
      [(sl ("type"), Json.str (sl ("response.output_item.added"))),
       (sl ("output_index"), Json.num outputIndex),
       (sl ("item"), Json.obj
         [(sl ("type"), Json.str (sl ("function_call"))),
          (sl ("id"), Json.str itemId),
          (sl ("call_id"), Json.str callId),
          (sl ("name"), Json.str tc.toolName),
          (sl ("arguments"), Json.str [])])]
    let argsDelta := Json.obj
      [(sl ("type"), Json.str (sl ("response.function_call_arguments.delta"))),
       (sl ("item_id"), Json.str itemId),
       (sl ("output_index"), Json.num outputIndex),
       (sl ("delta"), Json.str tc.arguments)]
    let done := Json.obj
      [(sl ("type"), Json.str (sl ("response.output_item.done"))),
       (sl ("output_index"), Json.num outputIndex),
       (sl ("item"), Json.obj
         [(sl ("type"), Json.str (sl ("function_call"))),
          (sl ("id"), Json.str itemId),
          (sl ("call_id"), Json.str callId),
          (sl ("name"), Json.str tc.toolName),
          (sl ("arguments"), Json.str tc.arguments),
          (sl ("status"), Json.str (sl ("completed")))])]
    let r := synthResponsesEvents outputIndex (nid + 2) rest
    (r.1, r.2.1, added :: argsDelta :: done :: r.2.2)

/-- `rewriteResponsesChunk` split into state, the cleaned pass-through chunk
and the injected synthesized events. -/
def rewriteResponsesChunkCore (s : SseS) (chunk : Json) : SseS × Json × List Json :=
  if !isTextDelta chunk then (s, chunk, [])
  else
    let deltaStr :=
      match getField chunk (sl ("delta")) with
      | some (Json.str d) => d
      | _ => []
    let r := extractToolCallsFromText s.track deltaStr
    let synth := synthResponsesEvents s.maxOutputIndex s.nextId r.2.2
    ({ s with track := r.1, maxOutputIndex := synth.1, nextId := synth.2.1 },
     objSet chunk (sl ("delta")) (Json.str r.2.1), synth.2.2)

/-- `rewriteResponsesChunk` from openai-sse.ts: the emitted event list is the
cleaned chunk followed by the injected events. -/
def rewriteResponsesChunk (s : SseS) (chunk : Json) : SseS × List Json :=
  let r := rewriteResponsesChunkCore s chunk
  if !isTextDelta chunk then (r.1, [chunk])
  else (r.1, r.2.1 :: r.2.2)

/-- Synthesize the two Chat-Completions chunks per recovered tool call: one
`delta.tool_calls` entry with `finish_reason: null`, then an empty delta with
`finish_reason: "tool_calls"`. -/
def synthChatEvents (chunk : Json) (choiceIndex : Nat) (nid callIndex : Nat) :
    List ToolCall → Nat × List Json
  | [] => (nid, [])
  | tc :: rest =>
    let toolCallId := sl ("call_") ++ freshUuid nid
    let entry := Json.obj
      [(sl ("index"), Json.num (Int.ofNat callIndex)),
       (sl ("id"), Json.str toolCallId),
       (sl ("type"), Json.str (sl ("function"))),
       (sl ("function"), Json.obj
         [(sl ("name"), Json.str tc.toolName),
          (sl ("arguments"), Json.str tc.arguments)])]
    let injected1 := objSet chunk (sl ("choices")) (Json.arr
      [Json.obj
        [(sl ("index"), Json.num (Int.ofNat choiceIndex)),
         (sl ("delta"), Json.obj [(sl ("tool_calls"), Json.arr [entry])]),
         (sl ("finish_reason"), Json.null)]])
    let injected2 := objSet chunk (sl ("choices")) (Json.arr
      [Json.obj
        [(sl ("index"), Json.num (Int.ofNat choiceIndex)),
         (sl ("delta"), Json.obj []),
         (sl ("finish_reason"), Json.str (sl ("tool_calls")))]])
    let r := synthChatEvents chunk choiceIndex (nid + 1) (callIndex + 1) rest
    (r.1, injected1 :: injected2 :: r.2)

/-- Per-choice processing of `rewriteChatChunk`: thread the tracker state and
id counter, return the rewritten choices and the injected chunks. -/
def chatChoicesLoop (s : SseS) (chunk : Json) (choiceIndex : Nat) :
    List Json → SseS × List Json × List Json
  | [] => (s, [], [])
  | choice :: rest =>
    let step : SseS × Json × List Json :=
      match getField choice (sl ("delta")) with
      | some (Json.obj deltaFields) =>
        match lookupArg deltaFields (sl ("content")) with
        | some (Json.str content) =>
          let r := extractToolCallsFromText s.track content
          let calls := r.2.2
          let synth :=
            if calls.isEmpty then (s.nextId, [])
            else synthChatEvents chunk choiceIndex s.nextId 0 calls
          let newChoice := objSet choice (sl ("delta"))
            (Json.obj (setField deltaFields (sl ("content")) (Json.str r.2.1)))
          ({ s with track := r.1, nextId := synth.1 }, newChoice, synth.2)
        | _ => (s, choice, [])
      | _ => (s, choice, [])
    let rec0 := chatChoicesLoop step.1 chunk (choiceIndex + 1) rest
    (rec0.1, step.2.1 :: rec0.2.1, step.2.2 ++ rec0.2.2)

/-- `rewriteChatChunk` from openai-sse.ts. -/
def rewriteChatChunk (s : SseS) (chunk : Json) : SseS × List Json :=
  match getField chunk (sl ("choices")) with
  | some (Json.arr cs) =>
    let r := chatChoicesLoop s chunk 0 cs
    (r.1, objSet chunk (sl ("choices")) (Json.arr r.2.1) :: r.2.2)
  | _ => (s, [chunk])

/-- Join with newline separators (models `join("\n")`). -/
def joinNL : List Str → Str
  | [] => []
  | [x] => x
  | x :: rest => x ++ '\n' :: joinNL rest

/-- The concatenated, trimmed `data:` payload of an SSE event block, when the
block has at least one `data:` line. -/
def eventData (eventBlock : Str) : Option Str :=
  let dataLines := (splitOnCh '\n' eventBlock).filter (fun l => strHasPre (sl ("data:")) l)
  if dataLines.isEmpty then none
  else some (trimS (joinNL (dataLines.map (fun l => trimStartS (l.drop 5)))))

/-- Dispatch one parsed JSON event: detect the mode if still unknown, apply
the Responses-mode max-index update, then rewrite according to the mode
(unknown mode passes the event through). -/
def handleParsedEvent (s : SseS) (json : Json) : SseS × List Json :=
  let s1 := if s.mode = Mode.unknown then { s with mode := detectMode json } else s
  let s2 := updateMaxOutputIdx s1 json
  match s2.mode with
  | Mode.responses => rewriteResponsesChunk s2 json
  | Mode.chat => rewriteChatChunk s2 json
  | Mode.unknown => (s2, [json])

/-- Serialize rewritten chunks back to SSE text. -/
def serializeEvents (chunks : List Json) : Str :=
  (chunks.map (fun c => sl ("data: ") ++ jsonStringify c ++ sl ("\n\n"))).flatten

/-- `rewriteEventBlock` from openai-sse.ts: pass non-data blocks and non-JSON
payloads through with their blank-line terminator restored, short-circuit the
`[DONE]` sentinel, otherwise parse and dispatch. -/
def rewriteEventBlock (s : SseS) (eventBlock : Str) : SseS × Str :=
  match eventData eventBlock with
  | none => (s, eventBlock ++ sl ("\n\n"))
  | some data =>
    if data == sl ("[DONE]") then (s, sl ("data: [DONE]\n\n"))
    else
      match jsonParse data with
      | none => (s, eventBlock ++ sl ("\n\n"))
      | some json =>
        let r := handleParsedEvent s json
        (r.1, serializeEvents r.2)

/-- Split off the first `\n\n`-delimited event block, if any (models
`buffer.indexOf("\n\n")` plus the two slices). -/
def splitNLNL : Str → Option (Str × Str)
  | [] => none
  | c :: rest =>
    if c = '\n' ∧ rest.head? = some '\n' then some ([], rest.tail)
    else (splitNLNL rest).map (fun p => (c :: p.1, p.2))

/-- The inner `while` of the transform callback: repeatedly split complete
event blocks off the buffer and rewrite each. -/
def drainEvents (fuel : Nat) (s : SseS) (buffer : Str) : SseS × List Str × Str :=
  match fuel with
  | 0 => (s, [], buffer)
  | fuel + 1 =>
    match splitNLNL buffer with
    | none => (s, [], buffer)
    | some (ev, rest) =>
      let r1 := rewriteEventBlock s ev
      let r2 := drainEvents fuel r1.1 rest
      (r2.1, r1.2 :: r2.2.1, r2.2.2)

/-- Process a sequence of transport chunks through the transform stage,
returning the final state, the enqueued outputs and the residual buffer. -/
def sseTransform (s : SseS) (buffer : Str) : List Str → SseS × List Str × Str
  | [] => (s, [], buffer)
  | chunk :: rest =>
    let buf := buffer ++ chunk
    let r1 := drainEvents (buf.length + 1) s buf
    let r2 := sseTransform r1.1 r1.2.2 rest
    (r2.1, r1.2.1 ++ r2.2.1, r2.2.2)

/-- Full stream run: transform every chunk, then flush the residual buffer
verbatim (the `flush` callback enqueues the tail only when non-empty). -/
def sseRunChunks (chunks : List Str) : List Str :=
  let r := sseTransform sseInit [] chunks
  r.2.1 ++ (if r.2.2.isEmpty then [] else [r.2.2])

/-- The stateless `extractToolCallsFromText` local to
`rewriteChatCompletionsJson` (response-sanitizer.ts): index scanning over the
full buffered content; an incomplete trailing block stays visible; the
closing-tag search runs from the start of the current remainder. -/
def extractJsonPathLoop (fuel : Nat) (remaining visAcc : Str) (calls : List ToolCall) :
    Str × List ToolCall :=
  match fuel with
  | 0 => (visAcc, calls)
  | fuel + 1 =>
    if remaining.isEmpty then (visAcc, calls)
    else
      match findSub (lowerS remaining) (sl ("<tool_call")) with
      | none => (visAcc ++ remaining, calls)
      | some startIdx =>
        match findSub (remaining.drop startIdx) ['>'] with
        | none => (visAcc ++ remaining, calls)
        | some _ =>
          match findSub (lowerS remaining) (sl ("</tool_call>")) with
          | none => (visAcc ++ remaining, calls)
          | some endIdx =>
            let block := (remaining.drop startIdx).take (endIdx + 12 - startIdx)
            let calls :=
              match parseToolCallBlock block with
              | some p => calls ++ [p]
              | none => calls
            extractJsonPathLoop fuel (remaining.drop (endIdx + 12))
              (visAcc ++ remaining.take startIdx) calls

/-- Entry point of the JSON-path extractor; the final visible text is
trim-ended. -/
def extractToolCallsJsonPath (text : Str) : Str × List ToolCall :=
  let r := extractJsonPathLoop (text.length + 1) text [] []
  (trimEndS r.1, r.2)

/-- Build the `tool_calls` array for a rewritten choice (generated ids, names
and serialized arguments, in extraction order with increasing index). -/
def buildToolCallsArr (nid : Nat) (idx : Nat) : List ToolCall → Nat × List Json
  | [] => (nid, [])
  | tc :: rest =>
    let entry := Json.obj
      [(sl ("index"), Json.num (Int.ofNat idx)),
       (sl ("id"), Json.str (sl ("call_") ++ freshUuid nid)),
       (sl ("type"), Json.str (sl ("function"))),
       (sl ("function"), Json.obj
         [(sl ("name"), Json.str tc.toolName),
          (sl ("arguments"), Json.str tc.arguments)])]
    let r := buildToolCallsArr (nid + 1) (idx + 1) rest
    (r.1, entry :: r.2)

/-- Does the choice content pass the cheap marker gate (both substrings
present, case-insensitive)? -/
def markerGate (content : Str) : Bool :=
  containsSub (lowerS content) (sl ("<tool_call"))
    && containsSub (lowerS content) (sl ("</tool_call>"))

/-- Per-choice rewrite of `rewriteChatCompletionsJson`: on a gated string
content with at least one recovered call, replace the content, attach
`message.tool_calls` and set `choice.finish_reason`. -/
def rewriteChoice (nid : Nat) (choice : Json) : Bool × Json × Nat :=
  match getField choice (sl ("message")) with
  | some msg =>
    match getField msg (sl ("content")) with
    | some (Json.str content) =>
      if markerGate content then
        let r := extractToolCallsJsonPath content
        if r.2.isEmpty then (false, choice, nid)
        else
          let tcs := buildToolCallsArr nid 0 r.2
          let newMsg := objSet (objSet msg (sl ("content")) (Json.str r.1))
            (sl ("tool_calls")) (Json.arr tcs.2)
          (true,
           objSet (objSet choice (sl ("message")) newMsg)
             (sl ("finish_reason")) (Json.str (sl ("tool_calls"))),
           tcs.1)
      else (false, choice, nid)
    | _ => (false, choice, nid)
  | none => (false, choice, nid)

/-- Fold `rewriteChoice` over the choices array. -/
def rewriteChoices (nid : Nat) : List Json → Bool × List Json × Nat
  | [] => (false, [], nid)
  | c :: rest =>
    let r1 := rewriteChoice nid c
    let r2 := rewriteChoices r1.2.2 rest
    (r1.1 || r2.1, r1.2.1 :: r2.2.1, r2.2.2)

/-- `rewriteChatCompletionsJson` from response-sanitizer.ts: returns whether a
rewrite happened, the (possibly rewritten) value, and the advanced id
counter. -/
def rewriteChatCompletionsJson (nid : Nat) (json : Json) :
    Bool × Json × Nat :=
  match getField json (sl ("choices")) with
  | some (Json.arr cs) =>
    let r := rewriteChoices nid cs
    (r.1, objSet json (sl ("choices")) (Json.arr r.2.1), r.2.2)
  | _ => (false, json, nid)

/-- An HTTP-like response: status, status text, headers, and an optional
chunked body. -/
structure HttpResponse where
  status : Nat
  statusText : Str
  headers : List (Str × Str)
  body : Option (List Str)
deriving DecidableEq, Repr

/-- `Headers.get`: case-insensitive name lookup. -/
def headersGet (hs : List (Str × Str)) (name : Str) : Option Str :=
  (hs.find? (fun h => lowerS h.fst == lowerS name)).map (fun h => h.snd)

/-- `Headers.delete`: remove every entry with the given name. -/
def headersDelete (hs : List (Str × Str)) (name : Str) : List (Str × Str) :=
  hs.filter (fun h => !(lowerS h.fst == lowerS name))

/-- Sanitizer options bag (`likelySse` is the only option affecting stream
shape; the diagnostics callback has no effect on content and is omitted). -/
structure SanOptions where
  likelySse : Bool := false
deriving DecidableEq, Repr

/-- `sanitizeOpenAISseEventStream` at the response level: absent body passes
the response through as-is; otherwise the body is piped through the transform
and the copied headers lose `content-length`. -/
def sanitizeOpenAISseEventStream (resp : HttpResponse) : HttpResponse :=
  match resp.body with
  | none => resp
  | some chunks =>
    { status := resp.status,
      statusText := resp.statusText,
      headers := headersDelete resp.headers (sl ("content-length")),
      body := some (sseRunChunks chunks) }

/-- `sanitizeOpenAIJsonResponse` from response-sanitizer.ts: buffer the body,
parse it, rewrite when possible; unchanged and changed results are emitted
re-serialized, a parse failure falls back to the original text. -/
def sanitizeOpenAIJsonResponse (resp : HttpResponse) : HttpResponse :=
  let text := (resp.body.getD []).flatten
  let bodyOut :=
    match jsonParse text with
    | some j =>
      let r := rewriteChatCompletionsJson 0 j
      if r.1 then jsonStringify r.2.1 else jsonStringify j
    | none => text
  { status := resp.status,
    statusText := resp.statusText,
    headers := headersDelete resp.headers (sl ("content-length")),
    body := some [bodyOut] }

/-- `sanitizeModelResponse` from response-sanitizer.ts: content-type (or the
`likelySse` hint) routes to the SSE path, `application/json` to the buffered
JSON path, anything else passes through untouched. -/
def sanitizeModelResponse (resp : HttpResponse) (opts : SanOptions) : HttpResponse :=
  let contentType := (headersGet resp.headers (sl ("content-type"))).getD []
  if containsSub contentType (sl ("text/event-stream")) || opts.likelySse then
    sanitizeOpenAISseEventStream resp
  else if containsSub contentType (sl ("application/json")) then
    sanitizeOpenAIJsonResponse resp
  else resp

/-- The tool names the structural-inference decision table can produce
(claim C9's fixed OpenCode built-in identifiers). -/
def inferableToolNames : List Str :=
  [sl ("batch"), sl ("write"), sl ("edit"), sl ("read"), sl ("grep"),
   sl ("glob"), sl ("list"), sl ("webfetch"), sl ("codesearch"),
   sl ("websearch"), sl ("task"), sl ("bash"), sl ("todo_write")]

/-- Claim C6: `parseToolCallBlock` resolves the tool name with explicit
attribute first, then an explicit tool/name argument, then the structural
decision table in its fixed most-specific-first order, and the scenario block
with `filePath` + `content` parses to the `write` tool with the serialized
arguments. -/
theorem c6_tool_name_resolution :
    parseToolCallBlock (sl ("<tool_call><arg_key>filePath</arg_key><arg_value>\"a.txt\"</arg_value><arg_key>content</arg_key><arg_value>\"hi\"</arg_value></tool_call>"))
      = some { toolName := sl ("write"),
               arguments := sl ("\x7b\"filePath\":\"a.txt\",\"content\":\"hi\"\x7d") }
    ∧ (parseToolCallBlock (sl ("<tool_call name=\"task\"><arg_key>tool</arg_key><arg_value>bash</arg_value><arg_key>filePath</arg_key><arg_value>f</arg_value><arg_key>content</arg_key><arg_value>c</arg_value></tool_call>"))).map ToolCall.toolName
      = some (sl ("task"))
    ∧ (parseToolCallBlock (sl ("<tool_call><arg_key>tool</arg_key><arg_value>mytool</arg_value><arg_key>command</arg_key><arg_value>ls</arg_value></tool_call>"))).map ToolCall.toolName
      = some (sl ("mytool"))
    ∧ (parseToolCallBlock (sl ("<tool_call><arg_key>filePath</arg_key><arg_value>f</arg_value><arg_key>content</arg_key><arg_value>c</arg_value><arg_key>oldString</arg_key><arg_value>o</arg_value><arg_key>newString</arg_key><arg_value>n</arg_value></tool_call>"))).map ToolCall.toolName
      = some (sl ("write"))
    ∧ (parseToolCallBlock (sl ("<tool_call><arg_key>filePath</arg_key><arg_value>f</arg_value><arg_key>oldString</arg_key><arg_value>o</arg_value><arg_key>newString</arg_key><arg_value>n</arg_value></tool_call>"))).map ToolCall.toolName
      = some (sl ("edit"))
    ∧ (parseToolCallBlock (sl ("<tool_call><arg_key>filePath</arg_key><arg_value>f</arg_value></tool_call>"))).map ToolCall.toolName
      = some (sl ("read"))
    ∧ (parseToolCallBlock (sl ("<tool_call><arg_key>pattern</arg_key><arg_value>p</arg_value><arg_key>include</arg_key><arg_value>i</arg_value></tool_call>"))).map ToolCall.toolName
      = some (sl ("grep"))
    ∧ (parseToolCallBlock (sl ("<tool_call><arg_key>pattern</arg_key><arg_value>p</arg_value></tool_call>"))).map ToolCall.toolName
      = some (sl ("glob"))
    ∧ (parseToolCallBlock (sl ("<tool_call><arg_key>command</arg_key><arg_value>ls</arg_value></tool_call>"))).map ToolCall.toolName
      = some (sl ("bash"))
    ∧ (parseToolCallBlock (sl ("<tool_call><arg_key>url</arg_key><arg_value>u</arg_value><arg_key>query</arg_key><arg_value>q</arg_value></tool_call>"))).map ToolCall.toolName
      = some (sl ("webfetch"))
    ∧ (parseToolCallBlock (sl ("<tool_call><arg_key>todos</arg_key><arg_value>[\"a\"]</arg_value></tool_call>"))).map ToolCall.toolName
      = some (sl ("todo_write"))
    ∧ parseToolCallBlock (sl ("<tool_call><arg_key>frobnicate</arg_key><arg_value>1</arg_value></tool_call>"))
      = none := by
  set_option maxRecDepth 100000 in decide

/-- Every built-in tool id is a nonempty string after trimming (used to show
the explicit arg branch fires before the conservative fallback can). -/
theorem builtin_trim_nonempty (s : Str) (h : isOpencodeBuiltinToolId s = true) :
    (trimS s).isEmpty = false := by
  have hmem : s ∈ opencodeBuiltinToolIds := by
    unfold isOpencodeBuiltinToolId at h
    exact List.mem_of_elem_eq_true h
  simp only [opencodeBuiltinToolIds, List.mem_cons, List.not_mem_nil, or_false] at hmem
  rcases hmem with h | h | h | h | h | h | h | h | h | h | h | h | h | h | h <;>
    subst h <;> decide

/-- When the explicit tool-name resolution fails, the conservative fallback
cannot fire: a built-in-naming string `tool` argument would already have been
returned as the explicit arg-form name. -/
theorem inferFallback_none (xml : Str) (args : List (Str × Json))
    (hexp : extractExplicitToolName xml args = none) :
    inferFallback args = none := by
  unfold inferFallback
  cases hl : lookupArg args (sl ("tool")) with
  | none => rfl
  | some v =>
    cases v with
    | str s =>
      by_cases hb : isOpencodeBuiltinToolId s = true
      · exfalso
        unfold extractExplicitToolName at hexp
        revert hexp
        cases attrToolName (xml.length + 1) xml 0 with
        | some cap => intro hexp; cases hexp
        | none =>
          have hnn : argOrNull args (sl ("tool")) = some (Json.str s) := by
            unfold argOrNull
            rw [hl]
          intro hexp
          rw [hnn] at hexp
          dsimp only at hexp
          have hE := builtin_trim_nonempty s hb
          by_cases he : (trimS s).isEmpty = true
          · rw [he] at hE; cases hE
          · rw [if_neg he] at hexp
            cases hexp
      · simp only [Bool.not_eq_true] at hb
        dsimp only
        rw [hb]
        rfl
    | null => rfl
    | bool b => rfl
    | num n => rfl
    | arr xs => rfl
    | obj fs => rfl

/-- Claim C9: when no explicit tool name is found, structural inference only
ever yields one of the fixed OpenCode built-in tool identifiers. -/
theorem c9_inferred_names_builtin (xml : Str) (args : List (Str × Json))
    (hexp : extractExplicitToolName xml args = none) (t : Str)
    (ht : inferToolNameFromArgs args = some t) :
    t ∈ inferableToolNames := by
  unfold inferToolNameFromArgs at ht
  rw [inferFallback_none xml args hexp] at ht
  by_cases h1 : argIsArr args "tool_calls" = true
  · rw [if_pos h1] at ht
    injection ht with hv
    subst hv
    decide
  rw [if_neg h1] at ht
  by_cases h2 : (argIsStr args "filePath" && argIsStr args "content") = true
  · rw [if_pos h2] at ht
    injection ht with hv
    subst hv
    decide
  rw [if_neg h2] at ht
  by_cases h3 : (argIsStr args "filePath" && argIsStr args "oldString" && argIsStr args "newString") = true
  · rw [if_pos h3] at ht
    injection ht with hv
    subst hv
    decide
  rw [if_neg h3] at ht
  by_cases h4 : argIsStr args "filePath" = true
  · rw [if_pos h4] at ht
    injection ht with hv
    subst hv
    decide
  rw [if_neg h4] at ht
  by_cases h5 : (argIsStr args "pattern" && (argIsStr args "include" || argIsStr args "path")) = true
  · rw [if_pos h5] at ht
    injection ht with hv
    subst hv
    decide
  rw [if_neg h5] at ht
  by_cases h6 : argIsStr args "pattern" = true
  · rw [if_pos h6] at ht
    injection ht with hv
    subst hv
    decide
  rw [if_neg h6] at ht
  by_cases h7 : (argIsStr args "path" && argIsArr args "ignore") = true
  · rw [if_pos h7] at ht
    injection ht with hv
    subst hv
    decide
  rw [if_neg h7] at ht
  by_cases h8 : argIsStr args "url" = true
  · rw [if_pos h8] at ht
    injection ht with hv
    subst hv
    decide
  rw [if_neg h8] at ht
  by_cases h9 : (argIsStr args "query" && argIsNum args "tokensNum") = true
  · rw [if_pos h9] at ht
    injection ht with hv
    subst hv
    decide
  rw [if_neg h9] at ht
  by_cases h10 : argIsStr args "query" = true
  · rw [if_pos h10] at ht
    injection ht with hv
    subst hv
    decide
  rw [if_neg h10] at ht
  by_cases h11 : (argIsStr args "prompt" && argIsStr args "subagent_type") = true
  · rw [if_pos h11] at ht
    injection ht with hv
    subst hv
    decide
  rw [if_neg h11] at ht
  by_cases h12 : argIsStr args "command" = true
  · rw [if_pos h12] at ht
    injection ht with hv
    subst hv
    decide
  rw [if_neg h12] at ht
  by_cases h13 : argIsArr args "todos" = true
  · rw [if_pos h13] at ht
    injection ht with hv
    subst hv
    decide
  rw [if_neg h13] at ht
  exact Option.noConfusion ht

/-- Witness for C9 at a concrete block: `filePath` alone infers `read`. -/
theorem c9_inferred_names_builtin_witness :
    extractExplicitToolName (sl ("<tool_call></tool_call>"))
        [(sl ("filePath"), Json.str (sl ("x")))] = none
      ∧ inferToolNameFromArgs [(sl ("filePath"), Json.str (sl ("x")))]
        = some (sl ("read"))
      ∧ sl ("read") ∈ inferableToolNames := by
  refine ⟨by decide, by decide, ?_⟩
  exact c9_inferred_names_builtin (sl ("<tool_call></tool_call>"))
    [(sl ("filePath"), Json.str (sl ("x")))] (by decide) (sl ("read")) (by decide)

/-- A delta whose single tool-call block has no resolvable tool name
(`x` is not a recognized argument), used for claims C2. -/
def unresolvedBlockDelta : Str :=
  sl ("a<tool_call><arg_key>x</arg_key><arg_value>1</arg_value></tool_call>b")

/-- A chat-completion body whose only choice carries `unresolvedBlockDelta`
as its message content. -/
def unresolvedBlockJson : Json :=
  Json.obj [(sl ("choices"), Json.arr
    [Json.obj [(sl ("message"), Json.obj
      [(sl ("content"), Json.str unresolvedBlockDelta)])]])]

/-- Claim C2 counterexample: the block parses to no tool call, yet the
streaming tracker does not re-emit the block text — the visible output is
only the surrounding text `ab`, so the original block text does not reappear
in the emitted delta. -/
theorem c2_counterexample :
    parseToolCallBlock
        (sl ("<tool_call><arg_key>x</arg_key><arg_value>1</arg_value></tool_call>")) = none
    ∧ (runTracker trackInit [unresolvedBlockDelta]).2 = (sl ("ab"), [])
    ∧ sl ("ab") ≠ unresolvedBlockDelta := by
  set_option maxRecDepth 100000 in decide

/-- Claim C2 amended: a block with no resolvable tool name yields no tool
call in either path; the streaming path drops the block's text from the
visible delta (emitting only the surrounding text), while the non-streaming
JSON path reports no change and leaves the body untouched. -/
theorem c2_unparsed_block_amended :
    (runTracker trackInit [unresolvedBlockDelta]).2 = (sl ("ab"), [])
    ∧ rewriteChatCompletionsJson 0 unresolvedBlockJson
      = (false, unresolvedBlockJson, 0) := by
  exact ⟨by set_option maxRecDepth 100000 in decide,
         by set_option maxRecDepth 100000 in rfl⟩

/-- Content for the C7 counterexample: removing the complete middle block
splices `x<tool_ca` and `ll>...` into a new complete block, so a second run
of the JSON sanitizer rewrites again. -/
def spliceContent : Str :=
  sl ("x<tool_ca<tool_call><arg_key>command</arg_key><arg_value>ls</arg_value></tool_call>ll><arg_key>command</arg_key><arg_value>pwd</arg_value></tool_call>")

/-- A chat-completion body carrying `spliceContent`. -/
def spliceJson : Json :=
  Json.obj [(sl ("choices"), Json.arr
    [Json.obj [(sl ("message"), Json.obj
      [(sl ("content"), Json.str spliceContent)])]])]

/-- Claim C7 counterexample: both the first and the second application of
`rewriteChatCompletionsJson` report a change, and the second application's
result differs from its input as a JSON value — the sanitizer is not
idempotent. -/
theorem c7_counterexample :
    (rewriteChatCompletionsJson 0 spliceJson).1 = true
    ∧ (rewriteChatCompletionsJson 0 (rewriteChatCompletionsJson 0 spliceJson).2.1).1 = true
    ∧ jsonStringify (rewriteChatCompletionsJson 0
          (rewriteChatCompletionsJson 0 spliceJson).2.1).2.1
      ≠ jsonStringify (rewriteChatCompletionsJson 0 spliceJson).2.1 := by
  set_option maxRecDepth 1000000 in decide

/-- Does the choice fail the cheap marker gate (so the rewrite leaves it
alone)? -/
def choiceGateFree (choice : Json) : Bool :=
  match getField choice (sl ("message")) with
  | some msg =>
    match getField msg (sl ("content")) with
    | some (Json.str content) => !markerGate content
    | _ => true
  | none => true

/-- Does every choice of the body fail the marker gate? -/
def noMarkerChoices (json : Json) : Bool :=
  match getField json (sl ("choices")) with
  | some (Json.arr cs) => cs.all choiceGateFree
  | _ => true

/-- A gate-free choice is left untouched by the per-choice rewrite. -/
theorem rewriteChoice_gate_free (n : Nat) (c : Json) (h : choiceGateFree c = true) :
    rewriteChoice n c = (false, c, n) := by
  unfold choiceGateFree at h
  unfold rewriteChoice
  cases hm : getField c (sl ("message")) with
  | none => rfl
  | some msg =>
    rw [hm] at h
    dsimp only at h ⊢
    cases hc : getField msg (sl ("content")) with
    | none => rfl
    | some v =>
      rw [hc] at h
      cases v with
      | str content =>
        dsimp only at h ⊢
        rw [Bool.not_eq_true'] at h
        rw [h]
        rfl
      | null => rfl
      | bool b => rfl
      | num m => rfl
      | arr xs => rfl
      | obj fs => rfl

/-- Gate-free choices fold to an unchanged list with no change flag. -/
theorem rewriteChoices_gate_free (n : Nat) (cs : List Json)
    (h : cs.all choiceGateFree = true) :
    rewriteChoices n cs = (false, cs, n) := by
  induction cs generalizing n with
  | nil => rfl
  | cons c rest ih =>
    rw [List.all_cons, Bool.and_eq_true] at h
    unfold rewriteChoices
    rw [rewriteChoice_gate_free n c h.1]
    dsimp only
    rw [ih n h.2]
    rfl

/-- Writing back an unchanged field value reproduces the field list. -/
theorem setField_self (fields : List (Str × Json)) (k : Str) (v : Json)
    (h : (fields.find? (fun f => f.fst == k)).map (fun f => f.snd) = some v) :
    setField fields k v = fields := by
  induction fields with
  | nil => exact Option.noConfusion h
  | cons f rest ih =>
    unfold setField
    rw [List.find?_cons] at h
    by_cases hk : (f.fst == k) = true
    · rw [hk] at h
      dsimp only at h
      have h2 := Option.some.inj h
      subst h2
      rw [if_pos hk]
    · rw [Bool.not_eq_true] at hk
      rw [hk] at h
      dsimp only at h
      rw [if_neg (by rw [hk]; exact Bool.false_ne_true), ih h]

/-- Claim C7 amended: the JSON sanitizer is idempotent on bodies in which no
choice's content still contains both tool-call marker substrings — on such a
body it reports no change and returns the value unchanged (the counterexample
shows the unconditional claim fails when a removed block splices its
surroundings into a new complete block). -/
theorem c7_idempotent_no_markers (n : Nat) (json : Json)
    (h : noMarkerChoices json = true) :
    rewriteChatCompletionsJson n json = (false, json, n) := by
  unfold noMarkerChoices at h
  unfold rewriteChatCompletionsJson
  cases hc : getField json (sl ("choices")) with
  | none => rfl
  | some v =>
    rw [hc] at h
    cases v with
    | arr cs =>
      dsimp only at h ⊢
      rw [rewriteChoices_gate_free n cs h]
      dsimp only
      cases json with
      | obj fields =>
        have hmap : (fields.find? (fun f => f.fst == sl ("choices"))).map (fun f => f.snd)
            = some (Json.arr cs) := hc
        simp only [objSet, setField_self fields (sl ("choices")) (Json.arr cs) hmap]
      | null => cases hc
      | bool b => cases hc
      | num m => cases hc
      | str s => cases hc
      | arr xs => cases hc
    | null => rfl
    | bool b => rfl
    | num m => rfl
    | str s => rfl
    | obj fs => rfl

/-- Witness for the amended C7 at a concrete marker-free body. -/
theorem c7_idempotent_no_markers_witness :
    noMarkerChoices (Json.obj [(sl ("choices"), Json.arr
        [Json.obj [(sl ("message"), Json.obj
          [(sl ("content"), Json.str (sl ("hello")))])]])]) = true
    ∧ rewriteChatCompletionsJson 0 (Json.obj [(sl ("choices"), Json.arr
        [Json.obj [(sl ("message"), Json.obj
          [(sl ("content"), Json.str (sl ("hello")))])]])])
      = (false, Json.obj [(sl ("choices"), Json.arr
          [Json.obj [(sl ("message"), Json.obj
            [(sl ("content"), Json.str (sl ("hello")))])]])], 0) := by
  refine ⟨by decide, ?_⟩
  exact c7_idempotent_no_markers 0 _ (by decide)

/-- Reference text for claim C1: visible text `x`/`y` around one complete
tool-call block (76 characters). -/
def c1Text : Str :=
  sl ("x<tool_call><arg_key>command</arg_key><arg_value>ls</arg_value></tool_call>y")

/-- Split positions of `c1Text` that do not fall strictly inside the opening
`<tool_call` marker (positions 2–10) or the closing `</tool_call>` marker
(positions 64–74). -/
def c1GoodSplit (i : Nat) : Bool :=
  !(2 ≤ i && i ≤ 10) && !(64 ≤ i && i ≤ 74)

/-- Claim C1 counterexample: splitting the fragment stream inside the opening
marker (`…x<tool_ca` / `ll>…`) leaks the entire block into visible text and
recovers no tool call, while the unsplit text recovers the call with visible
text `xy` — chunk-split invariance fails. -/
theorem c1_counterexample :
    (runTracker trackInit [c1Text]).2
      = (sl ("xy"),
         [{ toolName := sl ("bash"), arguments := sl ("\x7b\"command\":\"ls\"\x7d") }])
    ∧ (runTracker trackInit
        [sl ("x<tool_ca"),
         sl ("ll><arg_key>command</arg_key><arg_value>ls</arg_value></tool_call>y")]).2
      = (c1Text, []) := by
  set_option maxRecDepth 1000000 in decide

set_option maxRecDepth 1000000 in
set_option maxHeartbeats 4000000 in
/-- Claim C1 amended: two-fragment splits of the reference text reproduce the
single-fragment visible text and tool calls exactly when the boundary does not
fall strictly inside a tool-call marker; a boundary inside the opening or
closing marker changes the output (the marker is not held back as an
ambiguous suffix — only thinking-marker suffixes are buffered). -/
theorem c1_split_invariance_outside_markers :
    ∀ i ≤ 76,
      ((runTracker trackInit [c1Text.take i, c1Text.drop i]).2
          = (runTracker trackInit [c1Text]).2
        ↔ c1GoodSplit i = true) := by
  decide

/-- Witness for the amended C1 at the boundary between the two argument
tags. -/
theorem c1_split_invariance_outside_markers_witness :
    (40 ≤ 76)
    ∧ (runTracker trackInit [c1Text.take 40, c1Text.drop 40]).2
      = (runTracker trackInit [c1Text]).2 := by
  refine ⟨by decide, ?_⟩
  exact (c1_split_invariance_outside_markers 40 (by decide)).mpr
    (by set_option maxRecDepth 1000000 in decide)

/-- Claim C4 counterexample: a thinking marker split as `x<t` / `hink>y`
leaks the partial marker fragment `<t` (and then the rest) into visible text,
while the unsplit fragment strips the marker — a two-character marker remnant
is not held back. -/
theorem c4_counterexample :
    (runTracker trackInit [sl ("x<t"), sl ("hink>y")]).2 = (sl ("x<think>y"), [])
    ∧ (runTracker trackInit [sl ("x<think>y")]).2 = (sl ("xy"), []) := by
  set_option maxRecDepth 1000000 in decide

/-- Claim C4 amended: a thinking wrapper marker split across a fragment
boundary is stripped exactly as in the unsplit stream precisely when the
fragment-final partial marker is at least 3 characters long and contains
`th`; shorter or earlier remnants (`<`, `<t`, `</t`, `[/t`, …) leak into
visible output. -/
theorem c4_think_split_hold :
    ∀ m ∈ thinkMarkers, ∀ k < m.length, 1 ≤ k →
      ((runTracker trackInit [sl ("x") ++ m.take k, m.drop k ++ sl ("y")]).2
          = (runTracker trackInit [sl ("x") ++ m ++ sl ("y")]).2
        ↔ (3 ≤ k ∧ containsSub (lowerS (m.take k)) (sl ("th")) = true)) := by
  set_option maxRecDepth 1000000 in decide

/-- Witness for the amended C4: the split `<th` / `ink>` is held back and
stripped like the unsplit marker. -/
theorem c4_think_split_hold_witness :
    sl ("<think>") ∈ thinkMarkers
    ∧ (runTracker trackInit
        [sl ("x") ++ (sl ("<think>")).take 3, (sl ("<think>")).drop 3 ++ sl ("y")]).2
      = (runTracker trackInit [sl ("x") ++ sl ("<think>") ++ sl ("y")]).2 := by
  refine ⟨by decide, ?_⟩
  exact (c4_think_split_hold (sl ("<think>")) (by decide) 3 (by decide) (by decide)).mpr
    (by decide)

/-- The max-index update never changes the detected mode. -/
theorem updateMax_mode (s : SseS) (j : Json) : (updateMaxOutputIdx s j).mode = s.mode := by
  unfold updateMaxOutputIdx
  by_cases h : s.mode = Mode.responses
  · rw [if_pos h]
    cases jsonOutputIdx j <;> rfl
  · rw [if_neg h]

/-- The Responses-chunk rewrite never changes the detected mode. -/
theorem rewriteResponses_mode (s : SseS) (j : Json) :
    (rewriteResponsesChunk s j).1.mode = s.mode := by
  unfold rewriteResponsesChunk rewriteResponsesChunkCore
  by_cases h : (!isTextDelta j) = true
  · rw [if_pos h, if_pos h]
  · rw [if_neg h, if_neg h]

/-- The per-choice chat loop never changes the detected mode. -/
theorem chatChoicesLoop_mode (chunk : Json) (cs : List Json) :
    ∀ (s : SseS) (i : Nat), (chatChoicesLoop s chunk i cs).1.mode = s.mode := by
  induction cs with
  | nil => intro s i; rfl
  | cons c rest ih =>
    intro s i
    unfold chatChoicesLoop
    cases hd : getField c (sl ("delta")) with
    | none => dsimp only; exact ih s (i + 1)
    | some v =>
      cases v with
      | obj deltaFields =>
        dsimp only
        cases hcont : lookupArg deltaFields (sl ("content")) with
        | none => dsimp only; exact ih s (i + 1)
        | some w =>
          cases w with
          | str content => dsimp only; exact ih _ (i + 1)
          | null => dsimp only; exact ih s (i + 1)
          | bool b => dsimp only; exact ih s (i + 1)
          | num n => dsimp only; exact ih s (i + 1)
          | arr xs => dsimp only; exact ih s (i + 1)
          | obj fs => dsimp only; exact ih s (i + 1)
      | null => dsimp only; exact ih s (i + 1)
      | bool b => dsimp only; exact ih s (i + 1)
      | num n => dsimp only; exact ih s (i + 1)
      | str t => dsimp only; exact ih s (i + 1)
      | arr xs => dsimp only; exact ih s (i + 1)

/-- The Chat-chunk rewrite never changes the detected mode. -/
theorem rewriteChat_mode (s : SseS) (j : Json) :
    (rewriteChatChunk s j).1.mode = s.mode := by
  unfold rewriteChatChunk
  cases hc : getField j (sl ("choices")) with
  | none => rfl
  | some v =>
    cases v with
    | arr cs => exact chatChoicesLoop_mode j cs s 0
    | null => rfl
    | bool b => rfl
    | num n => rfl
    | str t => rfl
    | obj fs => rfl

/-- First SSE event of the C3 stream: a JSON payload with neither a string
`type` field nor an array `choices` field. -/
def c3Event1 : Str := sl ("data: \x7b\"foo\":1\x7d")

/-- Second SSE event of the C3 stream: a Chat-Completions chunk whose content
carries a tool-call block. -/
def c3Event2 : Str := sl ("data: \x7b\"choices\":[\x7b\"index\":0,\"delta\":\x7b\"content\":\"Sure, <tool_call><arg_key>command</arg_key><arg_value>ls</arg_value></tool_call> done\"\x7d\x7d]\x7d")

/-- Claim C3 counterexample: after a first JSON event of unrecognized shape
the mode stays unknown and that event passes through — but detection is
retried, so the second event is recognized as Chat Completions and rewritten
(injecting `tool_calls` chunks), contradicting “no rewriting is attempted for
the remainder of that stream”. -/
theorem c3_counterexample :
    (rewriteEventBlock sseInit c3Event1).1.mode = Mode.unknown
    ∧ (rewriteEventBlock sseInit c3Event1).2 = c3Event1 ++ sl ("\n\n")
    ∧ (rewriteEventBlock (rewriteEventBlock sseInit c3Event1).1 c3Event2).1.mode = Mode.chat
    ∧ containsSub c3Event2 (sl ("tool_calls")) = false
    ∧ containsSub ((rewriteEventBlock (rewriteEventBlock sseInit c3Event1).1 c3Event2).2)
        (sl ("tool_calls")) = true := by
  set_option maxRecDepth 1000000 in decide

/-- Claim C3 amended: while the mode is unknown, each JSON event's shape is
inspected anew — a string `type` field selects Responses, an array `choices`
field selects Chat Completions, any other shape leaves the mode unknown and
that event passes through unchanged; detection is retried on later events
rather than being disabled for the rest of the stream. -/
theorem c3_mode_detection_amended (s : SseS) (json : Json) (h : s.mode = Mode.unknown) :
    (handleParsedEvent s json).1.mode = detectMode json
    ∧ (detectMode json = Mode.unknown → (handleParsedEvent s json).2 = [json])
    ∧ (∀ t, getField json (sl ("type")) = some (Json.str t) →
        detectMode json = Mode.responses)
    ∧ (∀ cs, getField json (sl ("type")) = none →
        getField json (sl ("choices")) = some (Json.arr cs) → detectMode json = Mode.chat)
    ∧ (getField json (sl ("type")) = none → getField json (sl ("choices")) = none →
        detectMode json = Mode.unknown) := by
  refine ⟨?_, ?_, ?_, ?_, ?_⟩
  · unfold handleParsedEvent
    rw [if_pos h]
    cases hd : detectMode json with
    | unknown =>
      have h2 : (updateMaxOutputIdx { s with mode := Mode.unknown } json).mode
          = Mode.unknown := updateMax_mode _ json
      dsimp only
      rw [h2]
      exact h2
    | responses =>
      have h2 : (updateMaxOutputIdx { s with mode := Mode.responses } json).mode
          = Mode.responses := updateMax_mode _ json
      dsimp only
      rw [h2]
      rw [rewriteResponses_mode]
      exact h2
    | chat =>
      have h2 : (updateMaxOutputIdx { s with mode := Mode.chat } json).mode
          = Mode.chat := updateMax_mode _ json
      dsimp only
      rw [h2]
      rw [rewriteChat_mode]
      exact h2
  · intro hd
    unfold handleParsedEvent
    rw [if_pos h, hd]
    have h2 : (updateMaxOutputIdx { s with mode := Mode.unknown } json).mode
        = Mode.unknown := updateMax_mode _ json
    dsimp only
    rw [h2]
  · intro t ht
    unfold detectMode
    rw [ht]
  · intro cs ht hc
    unfold detectMode
    rw [ht, hc]
  · intro ht hc
    unfold detectMode
    rw [ht, hc]

/-- Witness for the amended C3 at a shapeless first event. -/
theorem c3_mode_detection_amended_witness :
    sseInit.mode = Mode.unknown
    ∧ (handleParsedEvent sseInit (Json.obj [(sl ("foo"), Json.num 1)])).2
      = [Json.obj [(sl ("foo"), Json.num 1)]] := by
  refine ⟨rfl, ?_⟩
  exact (c3_mode_detection_amended sseInit (Json.obj [(sl ("foo"), Json.num 1)]) rfl).2.1
    (by decide)

/-- Process a list of parsed JSON events through the per-event dispatcher,
concatenating the emitted events. -/
def runParsedEvents (s : SseS) : List Json → SseS × List Json
  | [] => (s, [])
  | e :: es =>
    let r1 := handleParsedEvent s e
    let r2 := runParsedEvents r1.1 es
    (r2.1, r1.2 ++ r2.2)

/-- The numeric output indices carried by a list of events. -/
def eventIdxs (es : List Json) : List Int := es.filterMap jsonOutputIdx

/-- The events synthesized while processing `e` after the prefix `es1`
(the `injected` list built by the Responses-chunk rewrite at that point). -/
def synthEventsAt (s : SseS) (es1 : List Json) (e : Json) : List Json :=
  (rewriteResponsesChunkCore (updateMaxOutputIdx (runParsedEvents s es1).1 e) e).2.2

/-- The string `type` field of an event, when present. -/
def typeOf (j : Json) : Option Str :=
  match getField j (sl ("type")) with
  | some (Json.str t) => some t
  | _ => none

/-- The synthesized-event loop only moves the max output index up. -/
theorem synthEvents_max_mono (mx : Int) (nid : Nat) (tcs : List ToolCall) :
    mx ≤ (synthResponsesEvents mx nid tcs).1 := by
  induction tcs generalizing mx nid with
  | nil => exact le_refl mx
  | cons tc rest ih =>
    unfold synthResponsesEvents
    dsimp only
    calc mx ≤ mx + 1 := by omega
    _ ≤ max (mx + 1) 0 := le_max_left _ _
    _ ≤ (synthResponsesEvents (max (mx + 1) 0) (nid + 2) rest).1 := ih _ _

/-- Skipping a leading field with a different key. -/
theorem jsonOutputIdx_skip (k : Str) (v : Json) (rest : List (Str × Json))
    (h : (k == sl ("output_index")) = false) :
    jsonOutputIdx (Json.obj ((k, v) :: rest)) = jsonOutputIdx (Json.obj rest) := by
  unfold jsonOutputIdx getField
  dsimp only
  rw [List.find?_cons]
  dsimp only
  rw [h]

/-- Reading a leading `output_index` field. -/
theorem jsonOutputIdx_hit (i : Int) (rest : List (Str × Json)) :
    jsonOutputIdx (Json.obj ((sl ("output_index"), Json.num i) :: rest)) = some i := by
  unfold jsonOutputIdx getField
  dsimp only
  rw [List.find?_cons]
  rfl

/-- Every synthesized event's output index is strictly above the max index at
the start of the synthesis loop. -/
theorem synthEvents_idx_gt (mx : Int) (nid : Nat) (tcs : List ToolCall) :
    ∀ j ∈ (synthResponsesEvents mx nid tcs).2.2, ∀ m, jsonOutputIdx j = some m → mx < m := by
  induction tcs generalizing mx nid with
  | nil => intro j hj; exact absurd hj (List.not_mem_nil j)
  | cons tc rest ih =>
    intro j hj m hm
    unfold synthResponsesEvents at hj
    dsimp only at hj
    simp only [List.mem_cons] at hj
    rcases hj with hj | hj | hj | hj
    · subst hj
      rw [jsonOutputIdx_skip _ _ _ (by decide), jsonOutputIdx_hit] at hm
      have := Option.some.inj hm
      subst this
      calc mx < mx + 1 := by omega
      _ ≤ max (mx + 1) 0 := le_max_left _ _
    · subst hj
      rw [jsonOutputIdx_skip _ _ _ (by decide),
          jsonOutputIdx_skip _ _ _ (by decide), jsonOutputIdx_hit] at hm
      have := Option.some.inj hm
      subst this
      calc mx < mx + 1 := by omega
      _ ≤ max (mx + 1) 0 := le_max_left _ _
    · subst hj
      rw [jsonOutputIdx_skip _ _ _ (by decide), jsonOutputIdx_hit] at hm
      have := Option.some.inj hm
      subst this
      calc mx < mx + 1 := by omega
      _ ≤ max (mx + 1) 0 := le_max_left _ _
    · have hlt := ih (max (mx + 1) 0) (nid + 2) j hj m hm
      calc mx ≤ mx + 1 := by omega
      _ ≤ max (mx + 1) 0 := le_max_left _ _
      _ < m := hlt

/-- The per-event max-index update is monotone. -/
theorem updateMax_max_mono (s : SseS) (j : Json) :
    s.maxOutputIndex ≤ (updateMaxOutputIdx s j).maxOutputIndex := by
  unfold updateMaxOutputIdx
  by_cases h : s.mode = Mode.responses
  · rw [if_pos h]
    cases jsonOutputIdx j with
    | none => exact le_refl _
    | some n => exact le_max_left _ _
  · rw [if_neg h]

/-- In Responses mode the update absorbs the event's own output index. -/
theorem updateMax_genuine (s : SseS) (j : Json) (n : Int)
    (hm : s.mode = Mode.responses) (hn : jsonOutputIdx j = some n) :
    n ≤ (updateMaxOutputIdx s j).maxOutputIndex := by
  unfold updateMaxOutputIdx
  rw [if_pos hm, hn]
  exact le_max_right _ _

/-- The Responses-chunk rewrite only moves the max output index up. -/
theorem rewriteResponses_max_mono (s : SseS) (j : Json) :
    s.maxOutputIndex ≤ (rewriteResponsesChunk s j).1.maxOutputIndex := by
  unfold rewriteResponsesChunk rewriteResponsesChunkCore
  by_cases h : (!isTextDelta j) = true
  · rw [if_pos h, if_pos h]
  · rw [if_neg h, if_neg h]
    dsimp only
    exact synthEvents_max_mono _ _ _

/-- In Responses mode the dispatcher is the max update followed by the
Responses-chunk rewrite. -/
theorem handleParsed_responses (s : SseS) (e : Json) (h : s.mode = Mode.responses) :
    handleParsedEvent s e = rewriteResponsesChunk (updateMaxOutputIdx s e) e := by
  unfold handleParsedEvent
  rw [if_neg (by rw [h]; exact fun hc => Mode.noConfusion hc)]
  have h2 : (updateMaxOutputIdx s e).mode = Mode.responses := by rw [updateMax_mode, h]
  dsimp only
  rw [h2]

/-- One dispatcher step in Responses mode: mode preserved, max monotone, the
event's own index absorbed. -/
theorem handleParsed_responses_facts (s : SseS) (e : Json) (h : s.mode = Mode.responses) :
    (handleParsedEvent s e).1.mode = Mode.responses
    ∧ s.maxOutputIndex ≤ (handleParsedEvent s e).1.maxOutputIndex
    ∧ (∀ n, jsonOutputIdx e = some n → n ≤ (handleParsedEvent s e).1.maxOutputIndex) := by
  rw [handleParsed_responses s e h]
  refine ⟨?_, ?_, ?_⟩
  · rw [rewriteResponses_mode, updateMax_mode, h]
  · exact le_trans (updateMax_max_mono s e) (rewriteResponses_max_mono _ e)
  · intro n hn
    exact le_trans (updateMax_genuine s e n h hn) (rewriteResponses_max_mono _ e)

/-- Along a Responses-mode run: the mode stays Responses, the max output
index is monotone, and every genuine output index in the stream is bounded by
the final max. -/
theorem runParsed_responses_facts (es : List Json) :
    ∀ s : SseS, s.mode = Mode.responses →
      (runParsedEvents s es).1.mode = Mode.responses
      ∧ s.maxOutputIndex ≤ (runParsedEvents s es).1.maxOutputIndex
      ∧ (∀ n ∈ eventIdxs es, n ≤ (runParsedEvents s es).1.maxOutputIndex) := by
  induction es with
  | nil =>
    intro s h
    exact ⟨h, le_refl _, fun n hn => absurd hn (List.not_mem_nil n)⟩
  | cons e rest ih =>
    intro s h
    have step := handleParsed_responses_facts s e h
    have tail := ih (handleParsedEvent s e).1 step.1
    unfold runParsedEvents
    dsimp only
    refine ⟨tail.1, le_trans step.2.1 tail.2.1, ?_⟩
    intro n hn
    unfold eventIdxs at hn
    rw [List.filterMap_cons] at hn
    cases hi : jsonOutputIdx e with
    | none =>
      rw [hi] at hn
      exact tail.2.2 n hn
    | some m =>
      rw [hi] at hn
      rcases List.mem_cons.mp hn with hn | hn
      · subst hn
        exact le_trans (step.2.2 n hi) tail.2.1
      · exact tail.2.2 n hn

/-- Injected events of one Responses-chunk rewrite carry indices strictly
above the pre-rewrite max. -/
theorem core_injected_gt (s : SseS) (e : Json) :
    ∀ j ∈ (rewriteResponsesChunkCore s e).2.2, ∀ m, jsonOutputIdx j = some m →
      s.maxOutputIndex < m := by
  unfold rewriteResponsesChunkCore
  by_cases h : (!isTextDelta e) = true
  · rw [if_pos h]
    intro j hj
    exact absurd hj (List.not_mem_nil j)
  · rw [if_neg h]
    dsimp only
    exact synthEvents_idx_gt _ _ _

/-- A tool-call block used in the C5 stream. -/
def c5Block : Str :=
  sl ("<tool_call><arg_key>command</arg_key><arg_value>ls</arg_value></tool_call>")

/-- First C5 event: a Responses text delta with output index 0 whose delta is
entirely one tool-call block. -/
def c5Ev1 : Json :=
  Json.obj [(sl ("type"), Json.str (sl ("response.output_text.delta"))),
            (sl ("output_index"), Json.num 0),
            (sl ("delta"), Json.str c5Block)]

/-- Second C5 event: a genuine model event carrying output index 1. -/
def c5Ev2 : Json :=
  Json.obj [(sl ("type"), Json.str (sl ("response.other"))),
            (sl ("output_index"), Json.num 1)]

/-- Claim C5 counterexample: the first event's tool call is synthesized with
output index 1, and the model's own later event also carries output index 1 —
a synthesized index collides with a genuine index appearing later in the
stream. -/
theorem c5_counterexample :
    ((runParsedEvents sseInit [c5Ev1, c5Ev2]).2.map (fun j => (typeOf j, jsonOutputIdx j)))
      = [(some (sl ("response.output_text.delta")), some 0),
         (some (sl ("response.output_item.added")), some 1),
         (some (sl ("response.function_call_arguments.delta")), some 1),
         (some (sl ("response.output_item.done")), some 1),
         (some (sl ("response.other")), some 1)] := by
  set_option maxRecDepth 1000000 in decide

/-- Claim C5 amended: within a Responses-mode stream the tracked max output
index is monotonically non-decreasing across events, every genuine output
index is absorbed into it, and every output index assigned to a synthesized
event is strictly greater than every genuine output index carried by events
processed at or before the synthesis point (a genuine index arriving later
may still collide, as the counterexample shows). -/
theorem c5_monotone_and_fresh :
    (∀ (s : SseS) (es : List Json), s.mode = Mode.responses →
      s.maxOutputIndex ≤ (runParsedEvents s es).1.maxOutputIndex)
    ∧ (∀ (s : SseS) (es : List Json) (n : Int), s.mode = Mode.responses →
        n ∈ eventIdxs es → n ≤ (runParsedEvents s es).1.maxOutputIndex)
    ∧ (∀ (s : SseS) (es1 : List Json) (e : Json) (m n : Int),
        s.mode = Mode.responses →
        (∃ j ∈ synthEventsAt s es1 e, jsonOutputIdx j = some m) →
        n ∈ eventIdxs (es1 ++ [e]) → n < m) := by
  refine ⟨?_, ?_, ?_⟩
  · intro s es h
    exact (runParsed_responses_facts es s h).2.1
  · intro s es n h hn
    exact (runParsed_responses_facts es s h).2.2 n hn
  · intro s es1 e m n h hex hn
    obtain ⟨j, hj, hm⟩ := hex
    have facts := runParsed_responses_facts es1 s h
    have hgt := core_injected_gt (updateMaxOutputIdx (runParsedEvents s es1).1 e) e j hj m hm
    unfold eventIdxs at hn
    rw [List.filterMap_append] at hn
    rcases List.mem_append.mp hn with hn | hn
    · have h1 : n ≤ (runParsedEvents s es1).1.maxOutputIndex := facts.2.2 n hn
      have h2 := updateMax_max_mono (runParsedEvents s es1).1 e
      omega
    · rw [List.filterMap_cons] at hn
      cases hi : jsonOutputIdx e with
      | none =>
        rw [hi] at hn
        exact absurd hn (List.not_mem_nil n)
      | some k =>
        rw [hi] at hn
        rcases List.mem_cons.mp hn with hn | hn
        · subst hn
          have h1 := updateMax_genuine (runParsedEvents s es1).1 e n facts.1 hi
          omega
        · exact absurd hn (List.not_mem_nil n)

/-- Witness for the amended C5: monotonicity on a concrete one-event
Responses stream. -/
theorem c5_monotone_and_fresh_witness :
    ({ sseInit with mode := Mode.responses } : SseS).mode = Mode.responses
    ∧ ({ sseInit with mode := Mode.responses } : SseS).maxOutputIndex
      ≤ (runParsedEvents { sseInit with mode := Mode.responses } [c5Ev2]).1.maxOutputIndex := by
  refine ⟨rfl, ?_⟩
  exact c5_monotone_and_fresh.1 { sseInit with mode := Mode.responses } [c5Ev2] rfl

/-- `splitNLNL` finds nothing exactly when the text does not contain the
two-byte blank-line boundary `\n\n`. -/
theorem splitNLNL_none_iff (s : Str) :
    splitNLNL s = none ↔ containsSub s (sl ("\n\n")) = false := by
  induction s with
  | nil => exact ⟨fun _ => rfl, fun _ => rfl⟩
  | cons c rest ih =>
    unfold splitNLNL containsSub findSub
    by_cases hc : c = '\n' ∧ rest.head? = some '\n'
    · rw [if_pos hc]
      have hpre : strHasPre (sl ("\n\n")) (c :: rest) = true := by
        cases rest with
        | nil => cases hc.2
        | cons d t =>
          have hd : d = '\n' := Option.some.inj hc.2
          subst hd
          rw [hc.1]
          rfl
      rw [if_pos hpre]
      constructor
      · intro h; cases h
      · intro h; cases h
    · rw [if_neg hc]
      have hpre : strHasPre (sl ("\n\n")) (c :: rest) = false := by
        cases rest with
        | nil =>
          show (('\n' == c) && false) = false
          rw [Bool.and_false]
        | cons d t =>
          show (('\n' == c) && (('\n' == d) && true)) = false
          cases hcc : ('\n' == c) with
          | false => rw [Bool.false_and]
          | true =>
            rw [Bool.true_and]
            have hceq : c = '\n' := (beq_iff_eq.mp hcc).symm
            have hde : ¬ d = '\n' := fun hd => hc ⟨hceq, by rw [hd]; rfl⟩
            have hdd : ('\n' == d) = false :=
              beq_eq_false_iff_ne.mpr (fun hdn => hde hdn.symm)
            rw [hdd, Bool.false_and]
      rw [hpre]
      rw [if_neg (by exact Bool.false_ne_true)]
      constructor
      · intro h
        have h2 : splitNLNL rest = none := by
          cases hs : splitNLNL rest with
          | none => rfl
          | some p => rw [hs] at h; cases h
        have h3 := ih.mp h2
        unfold containsSub at h3
        cases hf : findSub rest (sl ("\n\n")) with
        | none => rfl
        | some i => rw [hf] at h3; cases h3
      · intro h
        have h2 : findSub rest (sl ("\n\n")) = none := by
          cases hf : findSub rest (sl ("\n\n")) with
          | none => rfl
          | some i => rw [hf] at h; cases h
        have h3 := ih.mpr (by unfold containsSub; rw [h2]; rfl)
        rw [h3]
        rfl

/-- A prefix of boundary-free text is boundary-free. -/
theorem splitNLNL_append_none (a b : Str) (h : splitNLNL (a ++ b) = none) :
    splitNLNL a = none := by
  induction a with
  | nil => rfl
  | cons c rest ih =>
    rw [List.cons_append] at h
    unfold splitNLNL at h ⊢
    by_cases hc : c = '\n' ∧ (rest ++ b).head? = some '\n'
    · rw [if_pos hc] at h; cases h
    · rw [if_neg hc] at h
      have h2 : splitNLNL (rest ++ b) = none := by
        cases hs : splitNLNL (rest ++ b) with
        | none => rfl
        | some p => rw [hs] at h; cases h
      have h3 := ih h2
      by_cases hc2 : c = '\n' ∧ rest.head? = some '\n'
      · exfalso
        apply hc
        refine ⟨hc2.1, ?_⟩
        cases rest with
        | nil => cases hc2.2
        | cons d t => rw [List.cons_append]; exact hc2.2
      · rw [if_neg hc2, h3]
        rfl

/-- With no boundary in the buffer, the event loop emits nothing and keeps
the buffer. -/
theorem drainEvents_none (fuel : Nat) (s : SseS) (buffer : Str)
    (h : splitNLNL buffer = none) :
    drainEvents fuel s buffer = (s, [], buffer) := by
  cases fuel with
  | zero => rfl
  | succ f =>
    unfold drainEvents
    rw [h]

/-- With no boundary anywhere in the stream, the transform stage emits
nothing and accumulates the whole remaining body in its buffer. -/
theorem sseTransform_none (chunks : List Str) :
    ∀ (s : SseS) (buffer : Str), splitNLNL (buffer ++ chunks.flatten) = none →
      sseTransform s buffer chunks = (s, [], buffer ++ chunks.flatten) := by
  induction chunks with
  | nil =>
    intro s buffer h
    simp [sseTransform]
  | cons cnk rest ih =>
    intro s buffer h
    rw [List.flatten_cons] at h
    have hpre : splitNLNL ((buffer ++ cnk) ++ rest.flatten) = none := by
      rw [List.append_assoc]
      exact h
    have hbuf : splitNLNL (buffer ++ cnk) = none := splitNLNL_append_none _ _ hpre
    unfold sseTransform
    dsimp only
    rw [drainEvents_none _ s (buffer ++ cnk) hbuf]
    dsimp only
    rw [ih s (buffer ++ cnk) hpre]
    simp [List.flatten_cons, List.append_assoc]

/-- Claim C10: if the SSE body never contains the bare `\n\n` boundary (for
example when events are delimited only with CRLF blank lines), the transform
recognizes no event boundary — it rewrites nothing, accumulates the whole
body in its buffer, and the flush emits the entire body verbatim as a single
chunk. -/
theorem c10_crlf_no_boundary (chunks : List Str)
    (h : containsSub chunks.flatten (sl ("\n\n")) = false)
    (hne : chunks.flatten ≠ []) :
    sseTransform sseInit [] chunks = (sseInit, [], chunks.flatten)
    ∧ sseRunChunks chunks = [chunks.flatten] := by
  have hsplit : splitNLNL chunks.flatten = none := (splitNLNL_none_iff _).mpr h
  have htr : sseTransform sseInit [] chunks = (sseInit, [], chunks.flatten) := by
    have := sseTransform_none chunks sseInit [] (by rwa [List.nil_append])
    rwa [List.nil_append] at this
  refine ⟨htr, ?_⟩
  unfold sseRunChunks
  rw [htr]
  dsimp only
  have hemp : chunks.flatten.isEmpty = false := by
    cases hfe : chunks.flatten with
    | nil => exact absurd hfe hne
    | cons x xs => rfl
  rw [hemp]
  rfl

/-- Witness for C10 on a two-chunk CRLF-delimited stream. -/
theorem c10_crlf_no_boundary_witness :
    containsSub ((["data: x\r\n\r\n".data, "data: y\r\n\r\n".data] : List Str).flatten)
        (sl ("\n\n")) = false
    ∧ sseRunChunks ["data: x\r\n\r\n".data, "data: y\r\n\r\n".data]
      = [(["data: x\r\n\r\n".data, "data: y\r\n\r\n".data] : List Str).flatten] := by
  refine ⟨by decide, ?_⟩
  exact (c10_crlf_no_boundary ["data: x\r\n\r\n".data, "data: y\r\n\r\n".data]
    (by decide) (by decide)).2

/-- The content-type header value used for routing (empty when absent). -/
def contentTypeOf (resp : HttpResponse) : Str :=
  (headersGet resp.headers (sl ("content-type"))).getD []

/-- An unsupported-content-type response that still carries a content-length
header. -/
def plainResp : HttpResponse :=
  { status := 200,
    statusText := sl ("OK"),
    headers := [(sl ("content-type"), sl ("text/plain")),
                (sl ("content-length"), sl ("5"))],
    body := some [sl ("hello")] }

/-- Claim C8 counterexample: in the pass-through case the response object is
returned as-is — its content-length header is **not** removed, so the
"in every case … content-length … removed" part of the claim fails. -/
theorem c8_counterexample :
    sanitizeModelResponse plainResp { likelySse := false } = plainResp
    ∧ headersGet (sanitizeModelResponse plainResp { likelySse := false }).headers
        (sl ("content-length")) = some (sl ("5")) := by
  decide

/-- Claim C8 amended: the routing rule is as claimed (SSE media type or the
`likelySse` hint selects the SSE path, otherwise a JSON media type selects
the buffered JSON path, otherwise the response passes through untouched), and
the two rewriting paths preserve status and status text and copy the headers
minus content-length — but the pass-through case (and the SSE path on an
absent body) returns the response object unchanged, headers included. -/
theorem c8_routing_amended (resp : HttpResponse) (opts : SanOptions) :
    ((containsSub (contentTypeOf resp) (sl ("text/event-stream")) = true
        ∨ opts.likelySse = true) →
      sanitizeModelResponse resp opts = sanitizeOpenAISseEventStream resp)
    ∧ (containsSub (contentTypeOf resp) (sl ("text/event-stream")) = false →
        opts.likelySse = false →
        containsSub (contentTypeOf resp) (sl ("application/json")) = true →
        sanitizeModelResponse resp opts = sanitizeOpenAIJsonResponse resp)
    ∧ (containsSub (contentTypeOf resp) (sl ("text/event-stream")) = false →
        opts.likelySse = false →
        containsSub (contentTypeOf resp) (sl ("application/json")) = false →
        sanitizeModelResponse resp opts = resp)
    ∧ (∀ chunks, resp.body = some chunks →
        (sanitizeOpenAISseEventStream resp).status = resp.status
        ∧ (sanitizeOpenAISseEventStream resp).statusText = resp.statusText
        ∧ (sanitizeOpenAISseEventStream resp).headers
          = headersDelete resp.headers (sl ("content-length")))
    ∧ ((sanitizeOpenAIJsonResponse resp).status = resp.status
        ∧ (sanitizeOpenAIJsonResponse resp).statusText = resp.statusText
        ∧ (sanitizeOpenAIJsonResponse resp).headers
          = headersDelete resp.headers (sl ("content-length")))
    ∧ (resp.body = none → sanitizeOpenAISseEventStream resp = resp) := by
  refine ⟨?_, ?_, ?_, ?_, ⟨rfl, rfl, rfl⟩, ?_⟩
  · intro h
    unfold sanitizeModelResponse
    have hb : (containsSub (contentTypeOf resp) (sl ("text/event-stream"))
        || opts.likelySse) = true := by
      rcases h with h | h
      · rw [h, Bool.true_or]
      · rw [h, Bool.or_true]
    unfold contentTypeOf at hb
    dsimp only
    rw [if_pos hb]
  · intro h1 h2 h3
    unfold contentTypeOf at h1 h3
    unfold sanitizeModelResponse
    have hcond : (containsSub ((headersGet resp.headers (sl ("content-type"))).getD [])
        (sl ("text/event-stream")) || opts.likelySse) = false := by rw [h1, h2]; rfl
    dsimp only
    rw [if_neg (by rw [hcond]; exact Bool.false_ne_true)]
    rw [if_pos h3]
  · intro h1 h2 h3
    unfold contentTypeOf at h1 h3
    unfold sanitizeModelResponse
    have hcond : (containsSub ((headersGet resp.headers (sl ("content-type"))).getD [])
        (sl ("text/event-stream")) || opts.likelySse) = false := by rw [h1, h2]; rfl
    dsimp only
    rw [if_neg (by rw [hcond]; exact Bool.false_ne_true)]
    rw [if_neg (by rw [h3]; exact Bool.false_ne_true)]
  · intro chunks hb
    unfold sanitizeOpenAISseEventStream
    rw [hb]
    exact ⟨rfl, rfl, rfl⟩
  · intro hb
    unfold sanitizeOpenAISseEventStream
    rw [hb]

/-- Witness for the amended C8: the concrete plain-text response routes to
pass-through. -/
theorem c8_routing_amended_witness :
    containsSub (contentTypeOf plainResp) (sl ("text/event-stream")) = false
    ∧ containsSub (contentTypeOf plainResp) (sl ("application/json")) = false
    ∧ sanitizeModelResponse plainResp { likelySse := false } = plainResp := by
  refine ⟨by decide, by decide, ?_⟩
  exact (c8_routing_amended plainResp { likelySse := false }).2.2.1
    (by decide) (by decide) (by decide)
